import Mathlib

/-!
Shallow embedding of the core of the `manus-futures-bot` trading bot
(`position_manager.py`, `risk_manager.py`, `trading_strategy.py`,
`technical_analysis.py`) and proofs about it.

Python position records are free-form dictionaries mapping string keys to
heterogeneous values; we model them as insertion-ordered association lists
over a small `Value` type.  Exceptions raised inside the `try` blocks of the
source (KeyError, TypeError, ZeroDivisionError, AttributeError) are modelled
by the explicit early-return branches of the corresponding Lean functions,
which is exactly what the enclosing `except` handlers of the source produce.
Floats are modelled as rationals.
-/

/-- Values that can be stored in a Python dict based position record:
strings, numbers, booleans, and Python None. -/
inductive Value where
  | str (s : String)
  | num (q : ℚ)
  | bool (b : Bool)
  | pynone
  deriving DecidableEq, Repr

/-- Python truthiness of a stored value (used by `if position[...]:`). -/
def Value.truthy : Value → Bool
  | .str s => s ≠ ""
  | .num q => q ≠ 0
  | .bool b => b
  | .pynone => false

/-- Numeric reading of a value: numbers are themselves, booleans coerce to
0/1 as in Python; anything else raises TypeError in arithmetic, modelled as
`none`. -/
def Value.asNum : Value → Option ℚ
  | .num q => some q
  | .bool b => some (if b then 1 else 0)
  | _ => none

/-- Python `==` comparison of a stored value with a string literal. -/
def Value.eqStr : Value → String → Bool
  | .str s, t => s = t
  | _, _ => false

/-- Insertion-ordered dictionary, the model of a Python dict. -/
abbrev PyDict (α : Type) := List (String × α)

/-- Dictionary lookup (`d[k]` / `d.get(k)`). -/
def dlookup {α : Type} : PyDict α → String → Option α
  | [], _ => none
  | (k, v) :: rest, s => if k = s then some v else dlookup rest s

/-- Dictionary assignment `d[k] = v`: replaces in place if the key exists,
appends otherwise (Python dicts keep insertion order). -/
def dinsert {α : Type} : PyDict α → String → α → PyDict α
  | [], s, v => [(s, v)]
  | (k, w) :: rest, s, v =>
      if k = s then (s, v) :: rest else (k, w) :: dinsert rest s v

/-- The keys of a dictionary, in order. -/
def dkeys {α : Type} (d : PyDict α) : List String := d.map Prod.fst

/-- A position record is a Python dict from field names to values. -/
abbrev PosDict := PyDict Value

/-- The ledger `self.positions` of `PositionManager`: a dict from symbol to
position record. -/
abbrev Ledger := PyDict PosDict

/-- An entry of the exchange-reported open-position list, after the
`float(...)` parses applied by the source (`positionAmt`, `entryPrice`). -/
structure ExchangePosition where
  symbol : String
  positionAmt : ℚ
  entryPrice : ℚ
  deriving DecidableEq, Repr

namespace PositionManager

/-- The position dict built by `PositionManager.add_position`
(position_manager.py:33-47); `now` stands for
`datetime.now().isoformat()`. -/
def new_position_data (symbol side : String) (entry_price quantity
    stop_loss take_profit : ℚ) (order_id : Option String) (now : String) :
    PosDict :=
  [("symbol", .str symbol),
   ("side", .str side),
   ("entry_price", .num entry_price),
   ("quantity", .num quantity),
   ("stop_loss", .num stop_loss),
   ("take_profit", .num take_profit),
   ("order_id", match order_id with | some s => .str s | none => .pynone),
   ("entry_time", .str now),
   ("status", .str "OPEN"),
   ("trailing_stop_active", .bool false),
   ("current_stop_loss", .num stop_loss),
   ("max_profit", .num 0),
   ("current_pnl", .num 0)]

/-- `PositionManager.add_position` (position_manager.py:14-55): stores the
fresh record under the symbol (`self.positions[symbol] = position_data`)
and returns True.  Returns the new ledger and the boolean result. -/
def add_position (st : Ledger) (symbol side : String) (entry_price quantity
    stop_loss take_profit : ℚ) (order_id : Option String) (now : String) :
    Ledger × Bool :=
  (dinsert st symbol
    (new_position_data symbol side entry_price quantity stop_loss
      take_profit order_id now), true)

/-- `PositionManager.update_position` (position_manager.py:93-117), inner
loop: `for key, value in kwargs.items(): if key in self.positions[symbol]:
self.positions[symbol][key] = value`. -/
def apply_kwargs (pos : PosDict) (kwargs : List (String × Value)) :
    PosDict :=
  kwargs.foldl
    (fun p kv => if (dlookup p kv.1).isSome then dinsert p kv.1 kv.2 else p)
    pos

/-- `PositionManager.update_position` (position_manager.py:93-117): if the
symbol is present, write each kwargs key that already exists in the record
and return True; otherwise log a warning and return False. -/
def update_position (st : Ledger) (symbol : String)
    (kwargs : List (String × Value)) : Ledger × Bool :=
  match dlookup st symbol with
  | none => (st, false)
  | some pos => (dinsert st symbol (apply_kwargs pos kwargs), true)

/-- `PositionManager.should_activate_trailing_stop`
(position_manager.py:168-208).  Missing keys (KeyError), non-numeric
`entry_price` (TypeError) and `entry_price = 0` (ZeroDivisionError) raise
inside the `try` and are downgraded to `(st, false)` by the `except`
handler. -/
def should_activate_trailing_stop (st : Ledger) (symbol : String)
    (current_price activation_threshold : ℚ) : Ledger × Bool :=
  match dlookup st symbol with
  | none => (st, false)
  | some pos =>
    match dlookup pos "trailing_stop_active" with
    | none => (st, false)
    | some tv =>
      if tv.truthy then (st, true)
      else
        match dlookup pos "entry_price", dlookup pos "side" with
        | some ev, some sv =>
          match ev.asNum with
          | none => (st, false)
          | some entry_price =>
            if entry_price = 0 then (st, false)
            else
              let profit_percent :=
                if sv.eqStr "LONG" then
                  (current_price - entry_price) / entry_price
                else (entry_price - current_price) / entry_price
              if profit_percent ≥ activation_threshold then
                (dinsert st symbol
                  (dinsert pos "trailing_stop_active" (.bool true)), true)
              else (st, false)
        | _, _ => (st, false)

/-- `PositionManager.update_trailing_stop` (position_manager.py:210-249).
Missing keys and a non-numeric stored stop (TypeError in the comparison)
raise and are downgraded to `(st, false)`. -/
def update_trailing_stop (st : Ledger) (symbol : String)
    (new_stop_loss : ℚ) : Ledger × Bool :=
  match dlookup st symbol with
  | none => (st, false)
  | some pos =>
    match dlookup pos "current_stop_loss", dlookup pos "side" with
    | some cv, some sv =>
      match cv.asNum with
      | none => (st, false)
      | some current_stop =>
        let should_update :=
          if sv.eqStr "LONG" then new_stop_loss > current_stop
          else new_stop_loss < current_stop
        if should_update then
          (dinsert st symbol
            (dinsert pos "current_stop_loss" (.num new_stop_loss)), true)
        else (st, false)
    | _, _ => (st, false)

/-- The record built for one exchange entry inside
`PositionManager.reconcile_positions` (position_manager.py:352-366). -/
def reconciled_data (e : ExchangePosition) (now : String) : PosDict :=
  [("symbol", .str e.symbol),
   ("side", .str (if e.positionAmt > 0 then "LONG" else "SHORT")),
   ("entry_price", .num e.entryPrice),
   ("quantity", .num |e.positionAmt|),
   ("stop_loss", .num 0),
   ("take_profit", .num 0),
   ("order_id", .pynone),
   ("entry_time", .str now),
   ("status", .str "OPEN"),
   ("trailing_stop_active", .bool false),
   ("current_stop_loss", .num 0),
   ("max_profit", .num 0),
   ("current_pnl", .num 0)]

/-- `PositionManager.reconcile_positions` (position_manager.py:327-376),
with the exchange answer passed in as `report`: an empty (falsy) report
clears the ledger; otherwise a fresh dict is built from the entries with
nonzero quantity and replaces the ledger.  Returns True in both cases. -/
def reconcile_positions (_st : Ledger) (report : List ExchangePosition)
    (now : String) : Ledger × Bool :=
  if report = [] then ([], true)
  else
    (report.foldl
      (fun acc e =>
        if e.positionAmt = 0 then acc
        else dinsert acc e.symbol (reconciled_data e now))
      [], true)

end PositionManager

namespace RiskManager

/-- `RiskManager.calculate_position_size` (risk_manager.py:25-67), with the
config values `self.max_risk_per_trade` and `self.max_position_size_percent`
passed explicitly. -/
def calculate_position_size (max_risk_per_trade max_position_size_percent
    account_balance entry_price stop_loss_price : ℚ) : ℚ :=
  let distance_to_sl := |entry_price - stop_loss_price|
  if distance_to_sl = 0 then 0
  else
    let max_risk_usdt := account_balance * max_risk_per_trade
    let position_size_based_on_risk := max_risk_usdt / distance_to_sl
    let max_position_size_usdt := account_balance * max_position_size_percent
    min position_size_based_on_risk max_position_size_usdt

/-- `RiskManager.update_trailing_stop` (risk_manager.py:201-243): the
trailing-stop proposal for an exchange position dict, with the config value
`self.trailing_stop_percent` passed explicitly (it serves both as the
activation threshold and as the trailing offset).  A zero entry price raises
ZeroDivisionError, downgraded to None by the `except` handler.  The function
reads the position and returns a proposal; it never writes any state. -/
def update_trailing_stop (trailing_stop_percent : ℚ)
    (position : ExchangePosition) (current_price : ℚ) : Option ℚ :=
  if position.entryPrice = 0 then none
  else
    let is_long := position.positionAmt > 0
    let profit_percent :=
      if is_long then
        (current_price - position.entryPrice) / position.entryPrice
      else (position.entryPrice - current_price) / position.entryPrice
    if profit_percent ≥ trailing_stop_percent then
      some (if is_long then current_price * (1 - trailing_stop_percent)
            else current_price * (1 + trailing_stop_percent))
    else none

/-- `RiskManager.validate_trade_parameters` (risk_manager.py:245-296).  The
risk-reward comparison at risk_manager.py:285-290 computes `actual_rr` and
logs a warning when it is below 90% of the configured ratio, but does not
change the result, so the configured ratio does not appear here. -/
def validate_trade_parameters (side : String) (entry_price stop_loss
    take_profit position_size_usdt : ℚ) : Bool :=
  if entry_price ≤ 0 ∨ stop_loss ≤ 0 ∨ take_profit ≤ 0 ∨
      position_size_usdt ≤ 0 then false
  else if side = "LONG" then
    if stop_loss ≥ entry_price then false
    else if take_profit ≤ entry_price then false
    else true
  else
    if stop_loss ≤ entry_price then false
    else if take_profit ≥ entry_price then false
    else true

end RiskManager

namespace TA

/-- Modelled from the spec: the library primitive `pandas_ta.ema` called by
`TechnicalAnalysis.calculate_ema` is not part of the repository.  Spec §4.1:
"ema(series, period): exponential smoothing, undefined (signals
unavailable) when len(series) < period".  The smoothing is seeded with the
simple average of the first `period` values and then follows
e' = α·x + (1−α)·e with α = 2/(period+1); `emaVals` is the list of defined
EMA values (series positions period−1 … len−1), the NaN prefix of the
pandas series being dropped. -/
def emaVals (series : List ℚ) (period : ℕ) : List ℚ :=
  let α : ℚ := 2 / ((period : ℚ) + 1)
  (series.drop period).scanl (fun e x => α * x + (1 - α) * e)
    ((series.take period).sum / (period : ℚ))

/-- Modelled from the spec: `pandas_ta.ema`, undefined (Python None) when
the series is shorter than the period. -/
def ema (series : List ℚ) (period : ℕ) : Option (List ℚ) :=
  if series.length < period then none else some (emaVals series period)

/-- `TechnicalAnalysis.calculate_ema` (technical_analysis.py:11-24): empty
data yields an empty series (`some []`); otherwise the pandas_ta result,
where `none` is a Python None return for a too-short series. -/
def calculate_ema (data : List ℚ) (period : ℕ) : Option (List ℚ) :=
  if data = [] then some [] else ema data period

/-- Successive differences `close.diff()` of a series (without the leading
NaN). -/
def diffs : List ℚ → List ℚ
  | [] => []
  | [_] => []
  | x :: y :: rest => (y - x) :: diffs (y :: rest)

/-- Modelled from the spec: the library primitive `pandas_ta.rsi` -- spec
§4.1 "rsi(series, period): Wilder's smoothed average gain/loss ratio;
undefined below period length".  Last value of the RSI series: gains and
losses of consecutive differences are averaged with Wilder weights
(1−1/period)^age (the common normalisation cancels in the ratio) and the
result is 100·G/(G+L); `none` when the series has at most `period` elements
(the pandas result is None or ends in NaN) or when G+L = 0 (NaN from a
constant series). -/
def rsiLast (series : List ℚ) (period : ℕ) : Option ℚ :=
  if series.length < period + 1 then none
  else
    let α : ℚ := 1 / (period : ℚ)
    let gl := (diffs series).foldl
      (fun acc d =>
        ((1 - α) * acc.1 + max d 0, (1 - α) * acc.2 + max (-d) 0))
      (0, 0)
    if gl.1 + gl.2 = 0 then none else some (100 * gl.1 / (gl.1 + gl.2))

/-- `TechnicalAnalysis.calculate_rsi` (technical_analysis.py:26-39) collapsed
to the last value, which is all `analyze_symbol` reads: `none` covers a None
return, an empty series and a NaN last value, the three cases
trading_strategy.py:66 treats alike. -/
def calculate_rsi (data : List ℚ) (period : ℕ) : Option ℚ :=
  if data = [] then none else rsiLast data period

/-- Modelled from the spec: the library primitive `pandas_ta.macd` -- spec
§4.1 "(macd_line, signal_line, histogram) = (ema(fast)−ema(slow), ema of
that difference, their difference); undefined if either EMA is undefined".
pandas_ta additionally requires len ≥ slow + signal; the macd line exists
from series position slow−1 on, so the fast EMA list is shifted by
slow − fast to align the two. -/
def macdLast (series : List ℚ) (fast slow signal : ℕ) :
    Option (ℚ × ℚ × ℚ) :=
  if series.length < slow + signal then none
  else
    match ema series fast, ema series slow with
    | some fs, some ss =>
      let macd_line := List.zipWith (· - ·) (fs.drop (slow - fast)) ss
      match ema macd_line signal with
      | some sg =>
        match macd_line.getLast?, sg.getLast? with
        | some m, some s => some (m, s, m - s)
        | _, _ => none
      | none => none
    | _, _ => none

/-- `TechnicalAnalysis.calculate_macd` (technical_analysis.py:41-70)
collapsed to the last row `(MACD, MACD_SIGNAL, MACD_HIST)`: `none` covers the
empty DataFrame returned for empty or too-short data, which
trading_strategy.py:79 maps to the empty dict. -/
def calculate_macd (data : List ℚ) (fast slow signal : ℕ) :
    Option (ℚ × ℚ × ℚ) :=
  if data = [] then none else macdLast data fast slow signal

/-- `TechnicalAnalysis.get_trend_direction` (technical_analysis.py:72-101).
Returns `none` for the AttributeError raised at technical_analysis.py:89
when `calculate_ema` returned Python None (non-empty series shorter than
the period): the exception escapes this function and is caught by the
caller. -/
def get_trend_direction (klines_4h : Option (List ℚ)) (ema_period : ℕ) :
    Option String :=
  match klines_4h with
  | none => some "SIDEWAYS"
  | some closes =>
    if closes = [] then some "SIDEWAYS"
    else
      match calculate_ema closes ema_period with
      | none => none
      | some emas =>
        match emas.getLast? with
        | none => some "SIDEWAYS"
        | some last_ema_200 =>
          let current_price := closes.getLast?.getD 0
          if current_price > last_ema_200 then some "UPTREND"
          else if current_price < last_ema_200 then some "DOWNTREND"
          else some "SIDEWAYS"

/-- `TechnicalAnalysis.check_ema_crossover` (technical_analysis.py:103-136). -/
def check_ema_crossover (klines_15m : Option (List ℚ)) (ema_period : ℕ)
    (direction : String) : Bool :=
  match klines_15m with
  | none => false
  | some closes =>
    if closes.length < ema_period + 1 then false
    else
      match calculate_ema closes ema_period with
      | none => false
      | some emas =>
        match emas.reverse with
        | current_ema :: previous_ema :: _ =>
          let current_price := closes.getLast?.getD 0
          let previous_price := (closes.reverse.drop 1).headD 0
          if direction = "UP" then
            decide (current_price > current_ema ∧
              previous_price < previous_ema)
          else if direction = "DOWN" then
            decide (current_price < current_ema ∧
              previous_price > previous_ema)
          else false
        | _ => false

/-- `TechnicalAnalysis.is_rsi_in_range` (technical_analysis.py:138-150). -/
def is_rsi_in_range (rsi_value min_val max_val : ℚ) : Bool :=
  decide (min_val ≤ rsi_value ∧ rsi_value ≤ max_val)

end TA

namespace Config

/-- config.py:13 -/
def EMA_200_PERIOD : ℕ := 200
/-- config.py:14 -/
def EMA_20_PERIOD : ℕ := 20
/-- config.py:15 -/
def RSI_PERIOD : ℕ := 14
/-- config.py:16 -/
def RSI_OVERBOUGHT : ℚ := 75
/-- config.py:17 -/
def RSI_OVERSOLD : ℚ := 25
/-- config.py:18 -/
def RSI_BUY_ENTRY : ℚ := 40
/-- config.py:19 -/
def RSI_SELL_ENTRY : ℚ := 60
/-- config.py:23 -/
def MACD_FAST_PERIOD : ℕ := 12
/-- config.py:24 -/
def MACD_SLOW_PERIOD : ℕ := 26
/-- config.py:25 -/
def MACD_SIGNAL_PERIOD : ℕ := 9

end Config

/-- The `analysis_result` dict of `TradingStrategy.analyze_symbol`
(trading_strategy.py:32-41).  `macd_15m` is the last MACD row, `none`
standing for the empty dict. -/
structure AnalysisResult where
  symbol : String
  signal : String
  trend_4h : String
  ema_crossover_15m : Bool
  rsi_15m : ℚ
  macd_15m : Option (ℚ × ℚ × ℚ)
  current_price : ℚ
  confidence : ℚ
  deriving DecidableEq, Repr

namespace TradingStrategy

/-- `TradingStrategy.check_long_conditions` (trading_strategy.py:135-172);
the `pd.isna` guards of condition 4 never fire in the model because a
defined MACD row contains no NaN. -/
def check_long_conditions (trend_4h : String)
    (klines_15m : Option (List ℚ)) (rsi_15m : ℚ)
    (macd_15m : Option (ℚ × ℚ × ℚ)) : Bool :=
  if trend_4h ≠ "UPTREND" then false
  else if ¬ TA.check_ema_crossover klines_15m Config.EMA_20_PERIOD "UP" then
    false
  else if ¬ TA.is_rsi_in_range rsi_15m Config.RSI_BUY_ENTRY
      Config.RSI_OVERBOUGHT then false
  else
    match macd_15m with
    | none => false
    | some (m, s, _) => decide (m > s)

/-- `TradingStrategy.check_short_conditions` (trading_strategy.py:174-211). -/
def check_short_conditions (trend_4h : String)
    (klines_15m : Option (List ℚ)) (rsi_15m : ℚ)
    (macd_15m : Option (ℚ × ℚ × ℚ)) : Bool :=
  if trend_4h ≠ "DOWNTREND" then false
  else if ¬ TA.check_ema_crossover klines_15m Config.EMA_20_PERIOD "DOWN" then
    false
  else if ¬ TA.is_rsi_in_range rsi_15m Config.RSI_OVERSOLD
      Config.RSI_SELL_ENTRY then false
  else
    match macd_15m with
    | none => false
    | some (m, s, _) => decide (m < s)

/-- `TradingStrategy.generate_signal` (trading_strategy.py:103-133); the
`symbol` parameter of the source is only logged and is dropped here. -/
def generate_signal (trend_4h : String) (klines_15m : Option (List ℚ))
    (rsi_15m : ℚ) (macd_15m : Option (ℚ × ℚ × ℚ)) : String :=
  if check_long_conditions trend_4h klines_15m rsi_15m macd_15m then "LONG"
  else if check_short_conditions trend_4h klines_15m rsi_15m macd_15m then
    "SHORT"
  else "HOLD"

/-- `TradingStrategy._calculate_signal_confidence`
(trading_strategy.py:236-269). -/
def calculate_signal_confidence (r : AnalysisResult) : ℚ :=
  let confidence : ℚ := 0
  let confidence :=
    if r.trend_4h = "UPTREND" ∨ r.trend_4h = "DOWNTREND" then
      confidence + 3/10
    else confidence
  let confidence :=
    if 30 < r.rsi_15m ∧ r.rsi_15m < 70 then confidence + 1/5
    else confidence
  let confidence :=
    match r.macd_15m with
    | some (m, s, _) =>
      if r.signal = "LONG" ∧ m > s ∧ m > 0 then confidence + 3/10
      else if r.signal = "SHORT" ∧ m < s ∧ m < 0 then confidence + 3/10
      else confidence
    | none => confidence
  let confidence := if r.signal ≠ "HOLD" then confidence + 1/5
    else confidence
  min confidence 1

/-- `TradingStrategy.analyze_symbol` (trading_strategy.py:22-101), as a
function of the two candle close series and the current price returned by
the client.  `none` or an empty list of candles triggers the early returns
at trading_strategy.py:46-54; a non-empty 4h series shorter than the EMA
period makes `get_trend_direction` raise, which the handler at
trading_strategy.py:99-101 turns into the partially filled default
result. -/
def analyze_symbol (symbol : String)
    (klines_4h klines_15m : Option (List ℚ)) (current_price : ℚ) :
    AnalysisResult :=
  let base : AnalysisResult :=
    { symbol := symbol, signal := "HOLD", trend_4h := "SIDEWAYS",
      ema_crossover_15m := false, rsi_15m := 0, macd_15m := none,
      current_price := 0, confidence := 0 }
  match klines_4h with
  | none => base
  | some xs4 =>
    if xs4 = [] then base
    else
      match klines_15m with
      | none => base
      | some xs15 =>
        if xs15 = [] then base
        else
          let r0 := { base with current_price := current_price }
          match TA.get_trend_direction (some xs4) Config.EMA_200_PERIOD with
          | none => r0
          | some trend =>
            let rsi := (TA.calculate_rsi xs15 Config.RSI_PERIOD).getD 0
            let macd := TA.calculate_macd xs15 Config.MACD_FAST_PERIOD
              Config.MACD_SLOW_PERIOD Config.MACD_SIGNAL_PERIOD
            let sig := generate_signal trend (some xs15) rsi macd
            let r1 := { r0 with
              trend_4h := trend
              rsi_15m := rsi
              macd_15m := macd
              signal := sig }
            { r1 with confidence := calculate_signal_confidence r1 }

end TradingStrategy

/-- Folding a list of `update_trailing_stop` calls (symbol, candidate) over
the ledger, keeping only the state. -/
def run_trailing_updates (st : Ledger) (updates : List (String × ℚ)) :
    Ledger :=
  updates.foldl
    (fun s u => (PositionManager.update_trailing_stop s u.1 u.2).1) st

/-- Folding a list of `should_activate_trailing_stop` calls
(symbol, price, threshold) over the ledger, keeping only the state. -/
def run_activations (st : Ledger) (calls : List (String × ℚ × ℚ)) :
    Ledger :=
  calls.foldl
    (fun s c =>
      (PositionManager.should_activate_trailing_stop s c.1 c.2.1 c.2.2).1)
    st

/-- Observer: the numeric `current_stop_loss` of a symbol's position. -/
def current_stop_of (st : Ledger) (symbol : String) : Option ℚ :=
  match dlookup st symbol with
  | none => none
  | some pos => (dlookup pos "current_stop_loss").bind Value.asNum

/-- Observer: the stored `side` value of a symbol's position. -/
def side_of (st : Ledger) (symbol : String) : Option Value :=
  (dlookup st symbol).bind fun pos => dlookup pos "side"

/-- The value the last occurrence of key `k` in a kwargs list assigns, if
any. -/
def kw_last : List (String × Value) → String → Option Value
  | [], _ => none
  | kv :: rest, k =>
      (kw_last rest k) <|> (if kv.1 = k then some kv.2 else none)

/-- The confidence formula exactly as claimed (closed RSI interval
[30, 70]), for comparison with `calculate_signal_confidence`: 0.3 for a
directional trend, 0.2 for RSI in [30,70], 0.3 for a MACD row matching the
signal in direction and sign, 0.2 for a non-HOLD signal, clipped to
[0, 1]. -/
def confidence_as_claimed (r : AnalysisResult) : ℚ :=
  max 0 (min 1
    ((if r.trend_4h = "UPTREND" ∨ r.trend_4h = "DOWNTREND" then 3/10 else 0)
     + (if 30 ≤ r.rsi_15m ∧ r.rsi_15m ≤ 70 then 1/5 else 0)
     + (match r.macd_15m with
        | some (m, s, _) =>
          if (r.signal = "LONG" ∧ m > s ∧ m > 0) ∨
              (r.signal = "SHORT" ∧ m < s ∧ m < 0) then 3/10 else 0
        | none => 0)
     + (if r.signal ≠ "HOLD" then 1/5 else 0)))

/-- The amended confidence formula: identical to `confidence_as_claimed`
except that the RSI bonus applies on the open interval (30, 70), as the code
tests `30 < rsi < 70`. -/
def confidence_as_amended (r : AnalysisResult) : ℚ :=
  max 0 (min 1
    ((if r.trend_4h = "UPTREND" ∨ r.trend_4h = "DOWNTREND" then 3/10 else 0)
     + (if 30 < r.rsi_15m ∧ r.rsi_15m < 70 then 1/5 else 0)
     + (match r.macd_15m with
        | some (m, s, _) =>
          if (r.signal = "LONG" ∧ m > s ∧ m > 0) ∨
              (r.signal = "SHORT" ∧ m < s ∧ m < 0) then 3/10 else 0
        | none => 0)
     + (if r.signal ≠ "HOLD" then 1/5 else 0)))

/-!  Lemmas about the dictionary model, shared by the claim proofs. -/
theorem dlookup_dinsert {α : Type} (d : PyDict α) (k : String) (v : α)
    (s : String) :
    dlookup (dinsert d k v) s = if k = s then some v else dlookup d s := by
  induction d with
  | nil => simp [dinsert, dlookup]
  | cons hd tl ih =>
      obtain ⟨k', w⟩ := hd
      by_cases hk : k' = k
      · subst hk
        by_cases hs : k' = s <;> simp [dinsert, dlookup, hs]
      · by_cases hs : k' = s
        · subst hs
          have hks : k ≠ k' := fun h => hk h.symm
          simp [dinsert, dlookup, hk, hks]
        · simp [dinsert, dlookup, hk, hs, ih]

theorem dlookup_dinsert_self {α : Type} (d : PyDict α) (k : String) (v : α) :
    dlookup (dinsert d k v) k = some v := by
  simp [dlookup_dinsert]

theorem dlookup_dinsert_ne {α : Type} (d : PyDict α) (k : String) (v : α)
    (s : String) (h : k ≠ s) :
    dlookup (dinsert d k v) s = dlookup d s := by
  simp [dlookup_dinsert, h]

theorem mem_dkeys_dinsert {α : Type} (d : PyDict α) (k : String) (v : α)
    (s : String) :
    s ∈ dkeys (dinsert d k v) ↔ s ∈ dkeys d ∨ s = k := by
  induction d with
  | nil => simp [dinsert, dkeys, eq_comm]
  | cons hd tl ih =>
      obtain ⟨k', w⟩ := hd
      by_cases hk : k' = k
      · subst hk
        simp [dinsert, dkeys] at *
        tauto
      · simp [dinsert, dkeys, hk] at *
        tauto

theorem dkeys_cons {α : Type} (k : String) (v : α) (d : PyDict α) :
    dkeys ((k, v) :: d) = k :: dkeys d := rfl

theorem dkeys_nodup_dinsert {α : Type} (d : PyDict α) (k : String) (v : α)
    (h : (dkeys d).Nodup) : (dkeys (dinsert d k v)).Nodup := by
  induction d with
  | nil => simp [dinsert, dkeys]
  | cons hd tl ih =>
      obtain ⟨k', w⟩ := hd
      rw [dkeys_cons, List.nodup_cons] at h
      by_cases hk : k' = k
      · subst hk
        simpa [dinsert, dkeys_cons, List.nodup_cons] using h
      · rw [show dinsert ((k', w) :: tl) k v = (k', w) :: dinsert tl k v by
              simp [dinsert, hk],
            dkeys_cons, List.nodup_cons]
        refine ⟨fun hmem => ?_, ih h.2⟩
        rcases (mem_dkeys_dinsert tl k v k').mp hmem with h1 | h1
        · exact h.1 h1
        · exact hk h1

/-- C6: for every balance, entry and stop, position sizing returns
min(balance·max_risk_fraction / |entry − stop|, balance·max_position_fraction)
and 0 when entry = stop; in particular balance 1000, risk fraction 0.02,
entry 100, stop 98, position fraction 0.1 gives min(10, 100) = 10. -/
theorem C6_position_size_formula (max_risk max_pos balance entry stop : ℚ) :
    RiskManager.calculate_position_size max_risk max_pos balance entry stop =
      (if entry = stop then 0
       else min (balance * max_risk / |entry - stop|) (balance * max_pos)) ∧
    RiskManager.calculate_position_size (1/50) (1/10) 1000 100 98 = 10 := by
  constructor
  · by_cases h : entry = stop
    · subst h; simp [RiskManager.calculate_position_size]
    · have hd : ¬ |entry - stop| = 0 := by
        simpa [abs_eq_zero, sub_eq_zero] using h
      simp [RiskManager.calculate_position_size, h, hd]
  · norm_num [RiskManager.calculate_position_size]

/-- C9: `validate_trade_parameters` accepts exactly when entry, stop, target
and size are positive and the side-specific ordering holds (LONG:
stop < entry < target; SHORT: target < entry < stop); a suboptimal realized
risk/reward ratio is only a warning, so e.g. a LONG with R:R = 1 (below 90%
of the configured 1.5) still validates. -/
theorem C9_validate_trade_parameters (side : String) (entry sl tp sz : ℚ) :
    (side = "LONG" →
      (RiskManager.validate_trade_parameters side entry sl tp sz = true ↔
        (0 < entry ∧ 0 < sl ∧ 0 < tp ∧ 0 < sz ∧ sl < entry ∧ entry < tp))) ∧
    (side = "SHORT" →
      (RiskManager.validate_trade_parameters side entry sl tp sz = true ↔
        (0 < entry ∧ 0 < sl ∧ 0 < tp ∧ 0 < sz ∧ tp < entry ∧ entry < sl))) ∧
    RiskManager.validate_trade_parameters "LONG" 100 99 101 5 = true := by
  refine ⟨?_, ?_, by norm_num [RiskManager.validate_trade_parameters]⟩
  · rintro rfl
    unfold RiskManager.validate_trade_parameters
    simp only [reduceIte]
    split_ifs with h1 h2 h3
    · simp only [false_iff]
      push_neg at h1
      rintro ⟨he, hsl, htp, hsz, hl1, hl2⟩
      rcases h1 with h | h | h | h <;> linarith
    · simp only [false_iff]
      rintro ⟨he, hsl, htp, hsz, hl1, hl2⟩
      exact absurd h2 (not_le.mpr hl1)
    · simp only [false_iff]
      rintro ⟨he, hsl, htp, hsz, hl1, hl2⟩
      exact absurd h3 (not_le.mpr hl2)
    · push_neg at h1 h2 h3
      simp only [true_iff]
      exact ⟨h1.1, h1.2.1, h1.2.2.1, h1.2.2.2, h2, h3⟩
  · rintro rfl
    unfold RiskManager.validate_trade_parameters
    rw [if_neg (show ¬ ("SHORT" = "LONG") from by decide)]
    split_ifs with h1 h2 h3
    · simp only [false_iff]
      push_neg at h1
      rintro ⟨he, hsl, htp, hsz, hl1, hl2⟩
      rcases h1 with h | h | h | h <;> linarith
    · simp only [false_iff]
      rintro ⟨he, hsl, htp, hsz, hl1, hl2⟩
      exact absurd h2 (not_le.mpr hl2)
    · simp only [false_iff]
      rintro ⟨he, hsl, htp, hsz, hl1, hl2⟩
      exact absurd h3 (not_le.mpr hl1)
    · push_neg at h1 h2 h3
      simp only [true_iff]
      exact ⟨h1.1, h1.2.1, h1.2.2.1, h1.2.2.2, h3, h2⟩

/-- C8: the trailing-stop proposal of the risk engine returns
price·(1 − p) for a LONG exchange position and price·(1 + p) for a SHORT
one exactly when the favorable move from entry, as a fraction of the entry
price, is at least the activation threshold p (the source uses the config
value `trailing_stop_percent` for both roles), and returns no proposal
otherwise; the function only reads the position, it writes nothing. -/
theorem C8_trailing_proposal (tsp : ℚ) (p : ExchangePosition)
    (price : ℚ) (h : p.entryPrice ≠ 0) :
    (0 < p.positionAmt →
      RiskManager.update_trailing_stop tsp p price =
        (if tsp ≤ (price - p.entryPrice) / p.entryPrice
         then some (price * (1 - tsp)) else none)) ∧
    (¬ 0 < p.positionAmt →
      RiskManager.update_trailing_stop tsp p price =
        (if tsp ≤ (p.entryPrice - price) / p.entryPrice
         then some (price * (1 + tsp)) else none)) := by
  constructor <;> intro hl <;>
    simp [RiskManager.update_trailing_stop, h, hl, ge_iff_le]

/-- Witness for C8: LONG entry 100, threshold 0.0075, price 100.8 — the
move is 0.008 ≥ 0.0075, so the proposal is 100.8·(1 − 0.0075) = 100.044. -/
theorem C8_trailing_proposal_witness :
    RiskManager.update_trailing_stop (3/400)
      ⟨"BTCUSDT", 1/100, 100⟩ (504/5) = some (25011/250) := by
  have h := (C8_trailing_proposal (3/400) ⟨"BTCUSDT", 1/100, 100⟩ (504/5)
    (by norm_num)).1 (by norm_num)
  rw [h, if_pos (by norm_num)]
  norm_num

/-- Witness for C9: a valid LONG and a valid SHORT order pass validation. -/
theorem C9_validate_trade_parameters_witness :
    RiskManager.validate_trade_parameters "LONG" 100 95 110 10 = true ∧
    RiskManager.validate_trade_parameters "SHORT" 100 105 90 10 = true :=
  ⟨((C9_validate_trade_parameters "LONG" 100 95 110 10).1 rfl).mpr
      (by norm_num),
   ((C9_validate_trade_parameters "SHORT" 100 105 90 10).2.1 rfl).mpr
      (by norm_num)⟩

/-- C1 is refuted: `add_position` on a symbol that already holds a position
neither fails nor keeps the old record — it returns true and replaces the
record (here the stored entry price changes from 100 to 200). -/
theorem C1_counterexample :
    (PositionManager.add_position
        (PositionManager.add_position [] "BTCUSDT" "LONG" 100 1 95 110
          none "t0").1 "BTCUSDT" "LONG" 200 1 95 110 none "t1").2 = true ∧
    dlookup (PositionManager.add_position
        (PositionManager.add_position [] "BTCUSDT" "LONG" 100 1 95 110
          none "t0").1 "BTCUSDT" "LONG" 200 1 95 110 none "t1").1
      "BTCUSDT" ≠
    dlookup (PositionManager.add_position [] "BTCUSDT" "LONG" 100 1 95 110
        none "t0").1 "BTCUSDT" := by
  decide

/-- C1 (amended): `add_position` always returns true and stores the fresh
record under the symbol, overwriting any existing position for that symbol;
other symbols are untouched, and since the ledger is keyed by symbol it
still never holds two positions for one symbol (key uniqueness is
preserved). -/
theorem C1_add_position_overwrites (st : Ledger) (symbol side : String)
    (ep q sl tp : ℚ) (oid : Option String) (now : String) :
    (PositionManager.add_position st symbol side ep q sl tp oid now).2 =
      true ∧
    dlookup (PositionManager.add_position st symbol side ep q sl tp oid
        now).1 symbol =
      some (PositionManager.new_position_data symbol side ep q sl tp oid
        now) ∧
    (∀ s, s ≠ symbol →
      dlookup (PositionManager.add_position st symbol side ep q sl tp oid
        now).1 s = dlookup st s) ∧
    ((dkeys st).Nodup →
      (dkeys (PositionManager.add_position st symbol side ep q sl tp oid
        now).1).Nodup) :=
  ⟨rfl, dlookup_dinsert_self _ _ _,
   fun s hs => dlookup_dinsert_ne st symbol _ s fun h => hs h.symm,
   fun h => dkeys_nodup_dinsert _ _ _ h⟩

/-- Witness for the amended C1 at a concrete ledger. -/
theorem C1_add_position_overwrites_witness :
    dlookup (PositionManager.add_position [] "BTCUSDT" "LONG" 100 1 95 110
      none "t0").1 "ETHUSDT" = none ∧
    (dkeys (PositionManager.add_position [] "BTCUSDT" "LONG" 100 1 95 110
      none "t0").1).Nodup := by
  have h := C1_add_position_overwrites [] "BTCUSDT" "LONG" 100 1 95 110
    none "t0"
  exact ⟨by rw [h.2.2.1 "ETHUSDT" (by decide)]; rfl, h.2.2.2 (by decide)⟩

theorem reconcile_fold_lookup_notmem (now : String) :
    ∀ (report : List ExchangePosition) (acc : Ledger) (s : String),
      s ∉ report.map ExchangePosition.symbol →
      dlookup (report.foldl
        (fun acc e => if e.positionAmt = 0 then acc
          else dinsert acc e.symbol (PositionManager.reconciled_data e now))
        acc) s = dlookup acc s := by
  intro report
  induction report with
  | nil => intro acc s _; rfl
  | cons e rest ih =>
      intro acc s hs
      simp only [List.map_cons, List.mem_cons] at hs
      push_neg at hs
      simp only [List.foldl_cons]
      rw [ih _ s hs.2]
      by_cases hz : e.positionAmt = 0
      · simp [hz]
      · simp [hz, dlookup_dinsert_ne _ _ _ _ fun h => hs.1 h.symm]

theorem reconcile_fold_lookup_mem (now : String) :
    ∀ (report : List ExchangePosition) (acc : Ledger)
      (e : ExchangePosition), e ∈ report →
      (report.map ExchangePosition.symbol).Nodup → e.positionAmt ≠ 0 →
      dlookup (report.foldl
        (fun acc e => if e.positionAmt = 0 then acc
          else dinsert acc e.symbol (PositionManager.reconciled_data e now))
        acc) e.symbol = some (PositionManager.reconciled_data e now) := by
  intro report
  induction report with
  | nil => intro _ e he; cases he
  | cons e1 rest ih =>
      intro acc e he hnd hz
      simp only [List.map_cons, List.nodup_cons] at hnd
      rcases List.mem_cons.mp he with rfl | hmem
      · simp only [List.foldl_cons]
        rw [reconcile_fold_lookup_notmem now rest _ _ hnd.1]
        simp [hz, dlookup_dinsert_self]
      · simp only [List.foldl_cons]
        exact ih _ e hmem hnd.2 hz

theorem reconcile_fold_nodup (now : String) :
    ∀ (report : List ExchangePosition) (acc : Ledger),
      (dkeys acc).Nodup →
      (dkeys (report.foldl
        (fun acc e => if e.positionAmt = 0 then acc
          else dinsert acc e.symbol (PositionManager.reconciled_data e now))
        acc)).Nodup := by
  intro report
  induction report with
  | nil => intro acc h; exact h
  | cons e rest ih =>
      intro acc h
      simp only [List.foldl_cons]
      apply ih
      by_cases hz : e.positionAmt = 0
      · simpa [hz] using h
      · simpa [hz] using dkeys_nodup_dinsert acc e.symbol _ h

/-- C4: `reconcile_positions` replaces the whole ledger with the
exchange-reported open positions: it returns true; an empty report yields
an empty ledger; under distinct reported symbols, every entry with nonzero
signed quantity ends up as exactly one record with side LONG for positive
and SHORT for negative quantity, the absolute quantity, the reported entry
price, and stop/target/current stop all 0 (see `reconciled_data`); symbols
absent from the report are absent from the ledger; the resulting keys are
unique; and the report (BTCUSDT, +0.01, 60000) yields exactly the one
expected OPEN LONG record. -/
theorem C4_reconcile (st : Ledger) (report : List ExchangePosition)
    (now : String) :
    (PositionManager.reconcile_positions st report now).2 = true ∧
    (report = [] →
      (PositionManager.reconcile_positions st report now).1 = []) ∧
    ((report.map ExchangePosition.symbol).Nodup →
      ∀ e ∈ report, e.positionAmt ≠ 0 →
        dlookup (PositionManager.reconcile_positions st report now).1
          e.symbol = some (PositionManager.reconciled_data e now)) ∧
    (∀ s, s ∉ report.map ExchangePosition.symbol →
      dlookup (PositionManager.reconcile_positions st report now).1 s =
        none) ∧
    (dkeys (PositionManager.reconcile_positions st report now).1).Nodup ∧
    (PositionManager.reconcile_positions st
        [⟨"BTCUSDT", 1/100, 60000⟩] now).1 =
      [("BTCUSDT",
        PositionManager.reconciled_data ⟨"BTCUSDT", 1/100, 60000⟩ now)] := by
  refine ⟨?_, ?_, ?_, ?_, ?_, ?_⟩
  · unfold PositionManager.reconcile_positions
    split <;> rfl
  · intro hr
    simp [PositionManager.reconcile_positions, hr]
  · intro hnd e he hz
    have hr : report ≠ [] := by rintro rfl; cases he
    simp only [PositionManager.reconcile_positions, if_neg hr]
    exact reconcile_fold_lookup_mem now report [] e he hnd hz
  · intro s hs
    by_cases hr : report = []
    · subst hr
      simp [PositionManager.reconcile_positions, dlookup]
    · simp only [PositionManager.reconcile_positions, if_neg hr]
      rw [reconcile_fold_lookup_notmem now report [] s hs]
      rfl
  · by_cases hr : report = []
    · subst hr
      simp [PositionManager.reconcile_positions, dkeys]
    · simp only [PositionManager.reconcile_positions, if_neg hr]
      exact reconcile_fold_nodup now report [] (by simp [dkeys])
  · norm_num [PositionManager.reconcile_positions, dinsert]

/-- Witness for C4 at the concrete BTCUSDT report. -/
theorem C4_reconcile_witness :
    dlookup (PositionManager.reconcile_positions []
      [⟨"BTCUSDT", 1/100, 60000⟩] "t").1 "BTCUSDT" =
      some (PositionManager.reconciled_data ⟨"BTCUSDT", 1/100, 60000⟩
        "t") ∧
    dlookup (PositionManager.reconcile_positions []
      [⟨"BTCUSDT", 1/100, 60000⟩] "t").1 "ETHUSDT" = none := by
  have h := C4_reconcile [] [⟨"BTCUSDT", 1/100, 60000⟩] "t"
  exact ⟨h.2.2.1 (by decide) ⟨"BTCUSDT", 1/100, 60000⟩ (by simp)
      (by norm_num),
    h.2.2.2.1 "ETHUSDT" (by decide)⟩

theorem apply_kw_step_isSome (pos : PosDict) (k1 : String) (v1 : Value)
    (k : String) :
    (dlookup (if (dlookup pos k1).isSome then dinsert pos k1 v1 else pos)
      k).isSome = (dlookup pos k).isSome := by
  by_cases h1 : (dlookup pos k1).isSome = true
  · rw [if_pos h1, dlookup_dinsert]
    by_cases hk : k1 = k
    · subst hk; simp [h1]
    · simp [hk]
  · rw [if_neg h1]

theorem apply_kwargs_lookup :
    ∀ (kwargs : List (String × Value)) (pos : PosDict) (k : String),
      dlookup (PositionManager.apply_kwargs pos kwargs) k =
        if (dlookup pos k).isSome ∧ (kw_last kwargs k).isSome
        then kw_last kwargs k else dlookup pos k := by
  intro kwargs
  induction kwargs with
  | nil =>
      intro pos k
      simp [PositionManager.apply_kwargs, kw_last]
  | cons kv rest ih =>
      intro pos k
      obtain ⟨k1, v1⟩ := kv
      have hstep : PositionManager.apply_kwargs pos ((k1, v1) :: rest)
          = PositionManager.apply_kwargs
              (if (dlookup pos k1).isSome then dinsert pos k1 v1 else pos)
              rest := rfl
      rw [hstep, ih, apply_kw_step_isSome]
      rcases hr : kw_last rest k with _ | w
      · -- no later occurrence of k: the head decides
        have hkl : kw_last ((k1, v1) :: rest) k =
            (if k1 = k then some v1 else none) := by
          simp [kw_last, hr]
        rw [hkl]
        by_cases hk : k1 = k
        · subst hk
          by_cases hp : (dlookup pos k1).isSome = true
          · simp [hp, hr, dlookup_dinsert_self]
          · simp [hp, hr]
        · by_cases hp1 : (dlookup pos k1).isSome = true
          · simp [hr, hk, dlookup_dinsert_ne pos k1 v1 k hk, hp1]
          · simp [hr, hk, hp1]
      · -- a later occurrence wins
        have hkl : kw_last ((k1, v1) :: rest) k = some w := by
          simp [kw_last, hr]
        rw [hkl]
        by_cases hp : (dlookup pos k).isSome = true
        · simp [hp, hr]
        · have hnone : dlookup pos k = none :=
            Option.not_isSome_iff_eq_none.mp hp
          have hnone' : dlookup (if (dlookup pos k1).isSome
              then dinsert pos k1 v1 else pos) k = none := by
            rw [← Option.not_isSome_iff_eq_none, apply_kw_step_isSome]
            exact hp
          simp [hp, hr, hnone, hnone']

/-- C10: for a symbol present in the ledger, `update_position` writes only
the kwargs keys that already exist as fields of the stored record (the last
occurrence of a key wins), silently ignores unknown keys, leaves every
other field and every other symbol unchanged, and returns true even when
every supplied key was ignored; for an absent symbol it returns false and
leaves the ledger unchanged. -/
theorem C10_update_position (st : Ledger) (symbol : String)
    (kwargs : List (String × Value)) :
    (dlookup st symbol = none →
      PositionManager.update_position st symbol kwargs = (st, false)) ∧
    (∀ pos, dlookup st symbol = some pos →
      (PositionManager.update_position st symbol kwargs).2 = true ∧
      (∀ s, s ≠ symbol →
        dlookup (PositionManager.update_position st symbol kwargs).1 s =
          dlookup st s) ∧
      dlookup (PositionManager.update_position st symbol kwargs).1 symbol =
        some (PositionManager.apply_kwargs pos kwargs) ∧
      (∀ k, dlookup (PositionManager.apply_kwargs pos kwargs) k =
        if (dlookup pos k).isSome ∧ (kw_last kwargs k).isSome
        then kw_last kwargs k else dlookup pos k)) := by
  constructor
  · intro h
    unfold PositionManager.update_position
    rw [h]
  · intro pos h
    unfold PositionManager.update_position
    rw [h]
    exact ⟨rfl,
      fun s hs => dlookup_dinsert_ne _ _ _ _ fun hh => hs hh.symm,
      dlookup_dinsert_self _ _ _,
      fun k => apply_kwargs_lookup kwargs pos k⟩

/-- Witness for C10: updating a known field succeeds, an unknown kwargs key
is not added, and other symbols stay untouched. -/
theorem C10_update_position_witness :
    (PositionManager.update_position
      [("BTCUSDT", [("entry_price", Value.num 100),
        ("current_pnl", Value.num 0)])]
      "BTCUSDT" [("current_pnl", Value.num 5), ("bogus", Value.num 7)]).2 =
      true ∧
    dlookup (PositionManager.apply_kwargs
      [("entry_price", Value.num 100), ("current_pnl", Value.num 0)]
      [("current_pnl", Value.num 5), ("bogus", Value.num 7)]) "bogus" =
      none ∧
    dlookup (PositionManager.apply_kwargs
      [("entry_price", Value.num 100), ("current_pnl", Value.num 0)]
      [("current_pnl", Value.num 5), ("bogus", Value.num 7)])
      "current_pnl" = some (Value.num 5) := by
  have h := C10_update_position
    [("BTCUSDT", [("entry_price", Value.num 100),
      ("current_pnl", Value.num 0)])]
    "BTCUSDT" [("current_pnl", Value.num 5), ("bogus", Value.num 7)]
  have h2 := h.2 [("entry_price", Value.num 100),
      ("current_pnl", Value.num 0)] (by decide)
  refine ⟨h2.1, ?_, ?_⟩
  · rw [h2.2.2.2 "bogus"]; decide
  · rw [h2.2.2.2 "current_pnl"]; decide


theorem trailing_step_mono (st : Ledger) (sym sym' : String) (cand c : ℚ)
    (sv : Value) (hs : side_of st sym = some sv)
    (hc : current_stop_of st sym = some c) :
    ∃ c', current_stop_of
        (PositionManager.update_trailing_stop st sym' cand).1 sym =
          some c' ∧
      side_of (PositionManager.update_trailing_stop st sym' cand).1 sym =
        some sv ∧
      (if sv.eqStr "LONG" then c ≤ c' else c' ≤ c) := by
  have triv : if sv.eqStr "LONG" then c ≤ c else c ≤ c := by
    split <;> exact le_refl c
  rcases hpos' : dlookup st sym' with _ | pos'
  · simp only [PositionManager.update_trailing_stop, hpos']
    exact ⟨c, hc, hs, triv⟩
  · rcases hcv : dlookup pos' "current_stop_loss" with _ | cv
    · simp only [PositionManager.update_trailing_stop, hpos', hcv]
      exact ⟨c, hc, hs, triv⟩
    · rcases hsv' : dlookup pos' "side" with _ | sv'
      · simp only [PositionManager.update_trailing_stop, hpos', hcv, hsv']
        exact ⟨c, hc, hs, triv⟩
      · rcases hnum : cv.asNum with _ | cur
        · simp only [PositionManager.update_trailing_stop, hpos', hcv,
            hsv', hnum]
          exact ⟨c, hc, hs, triv⟩
        · simp only [PositionManager.update_trailing_stop, hpos', hcv,
            hsv', hnum]
          by_cases hup : (if sv'.eqStr "LONG" = true then cand > cur
              else cand < cur)
          · rw [if_pos hup]
            by_cases hsym : sym' = sym
            · subst hsym
              have hsveq : sv' = sv := by
                unfold side_of at hs
                rw [hpos'] at hs
                simp only [Option.some_bind] at hs
                rw [hsv'] at hs
                exact Option.some.inj hs
              have hcur : cur = c := by
                unfold current_stop_of at hc
                rw [hpos'] at hc
                simp only at hc
                rw [hcv] at hc
                simp only [Option.some_bind] at hc
                rw [hnum] at hc
                exact Option.some.inj hc
              subst hsveq
              subst hcur
              refine ⟨cand, ?_, ?_, ?_⟩
              · unfold current_stop_of
                rw [dlookup_dinsert_self]
                simp only
                rw [dlookup_dinsert_self]
                rfl
              · unfold side_of
                rw [dlookup_dinsert_self]
                simp only [Option.some_bind]
                rw [dlookup_dinsert_ne _ _ _ _ (by decide)]
                exact hsv'
              · by_cases hL : sv'.eqStr "LONG" = true
                · rw [if_pos hL] at hup ⊢
                  exact le_of_lt hup
                · rw [if_neg hL] at hup ⊢
                  exact le_of_lt hup
            · refine ⟨c, ?_, ?_, triv⟩
              · unfold current_stop_of at hc ⊢
                rw [dlookup_dinsert_ne _ _ _ _ hsym]
                exact hc
              · unfold side_of at hs ⊢
                rw [dlookup_dinsert_ne _ _ _ _ hsym]
                exact hs
          · rw [if_neg hup]
            exact ⟨c, hc, hs, triv⟩

theorem trailing_run_mono (sym : String) :
    ∀ (updates : List (String × ℚ)) (st : Ledger) (c : ℚ) (sv : Value),
      side_of st sym = some sv → current_stop_of st sym = some c →
      ∃ c', current_stop_of (run_trailing_updates st updates) sym =
          some c' ∧
        side_of (run_trailing_updates st updates) sym = some sv ∧
        (if sv.eqStr "LONG" then c ≤ c' else c' ≤ c) := by
  intro updates
  induction updates with
  | nil =>
      intro st c sv hs hc
      exact ⟨c, hc, hs, by split <;> exact le_refl c⟩
  | cons u rest ih =>
      intro st c sv hs hc
      obtain ⟨c1, hc1, hs1, hle1⟩ :=
        trailing_step_mono st sym u.1 u.2 c sv hs hc
      obtain ⟨c2, hc2, hs2, hle2⟩ := ih _ c1 sv hs1 hc1
      refine ⟨c2, hc2, hs2, ?_⟩
      by_cases hL : sv.eqStr "LONG" = true
      · rw [if_pos hL] at hle1 hle2 ⊢
        exact le_trans hle1 hle2
      · rw [if_neg hL] at hle1 hle2 ⊢
        exact le_trans hle2 hle1

/-- C2: `update_trailing_stop` writes the candidate (and returns true) only
when it is strictly more favorable than the stored `current_stop_loss`
(LONG: candidate > current; SHORT: candidate < current) and is a no-op
returning false otherwise; consequently over any sequence of
`update_trailing_stop` calls the stored stop of a LONG position never
decreases and that of a SHORT position never increases. -/
theorem C2_update_trailing_stop (st : Ledger) (symbol : String)
    (cand : ℚ) (pos : PosDict) (cv sv : Value) (cur : ℚ)
    (hpos : dlookup st symbol = some pos)
    (hcv : dlookup pos "current_stop_loss" = some cv)
    (hsv : dlookup pos "side" = some sv)
    (hnum : cv.asNum = some cur) :
    (sv.eqStr "LONG" = true →
      (cur < cand →
        PositionManager.update_trailing_stop st symbol cand =
          (dinsert st symbol
            (dinsert pos "current_stop_loss" (Value.num cand)), true)) ∧
      (¬ cur < cand →
        PositionManager.update_trailing_stop st symbol cand =
          (st, false))) ∧
    (sv.eqStr "LONG" = false →
      (cand < cur →
        PositionManager.update_trailing_stop st symbol cand =
          (dinsert st symbol
            (dinsert pos "current_stop_loss" (Value.num cand)), true)) ∧
      (¬ cand < cur →
        PositionManager.update_trailing_stop st symbol cand =
          (st, false))) ∧
    (∀ updates : List (String × ℚ), ∃ c',
      current_stop_of (run_trailing_updates st updates) symbol = some c' ∧
      (if sv.eqStr "LONG" then cur ≤ c' else c' ≤ cur)) := by
  have hred : PositionManager.update_trailing_stop st symbol cand =
      (if (if sv.eqStr "LONG" = true then cand > cur else cand < cur)
        then (dinsert st symbol
          (dinsert pos "current_stop_loss" (Value.num cand)), true)
        else (st, false)) := by
    simp only [PositionManager.update_trailing_stop, hpos, hcv, hsv, hnum]
  refine ⟨?_, ?_, ?_⟩
  · intro hL
    constructor
    · intro hlt
      rw [hred, if_pos (show (if sv.eqStr "LONG" = true then cand > cur
          else cand < cur) from by rw [if_pos hL]; exact hlt)]
    · intro hlt
      rw [hred, if_neg (show ¬ (if sv.eqStr "LONG" = true then cand > cur
          else cand < cur) from by rw [if_pos hL]; exact hlt)]
  · intro hL
    have hL' : ¬ (sv.eqStr "LONG" = true) := by rw [hL]; decide
    constructor
    · intro hlt
      rw [hred, if_pos (show (if sv.eqStr "LONG" = true then cand > cur
          else cand < cur) from by rw [if_neg hL']; exact hlt)]
    · intro hlt
      rw [hred, if_neg (show ¬ (if sv.eqStr "LONG" = true then cand > cur
          else cand < cur) from by rw [if_neg hL']; exact hlt)]
  · intro updates
    have hs : side_of st symbol = some sv := by
      unfold side_of
      rw [hpos]
      simp only [Option.some_bind]
      exact hsv
    have hc : current_stop_of st symbol = some cur := by
      unfold current_stop_of
      rw [hpos]
      simp only
      rw [hcv]
      simp only [Option.some_bind]
      exact hnum
    obtain ⟨c', hc', _, hle⟩ := trailing_run_mono symbol updates st cur sv
      hs hc
    exact ⟨c', hc', hle⟩

/-- Witness for C2: a LONG position with stop 95 rejects candidate 94 as a
no-op and, over a sequence of updates, never sees its stop drop below 95. -/
theorem C2_update_trailing_stop_witness :
    PositionManager.update_trailing_stop
      [("BTCUSDT", [("side", Value.str "LONG"),
        ("current_stop_loss", Value.num 95)])] "BTCUSDT" 94 =
      ([("BTCUSDT", [("side", Value.str "LONG"),
        ("current_stop_loss", Value.num 95)])], false) ∧
    ∃ c', current_stop_of (run_trailing_updates
        [("BTCUSDT", [("side", Value.str "LONG"),
          ("current_stop_loss", Value.num 95)])]
        [("BTCUSDT", 96), ("BTCUSDT", 90)]) "BTCUSDT" = some c' ∧
      (95 : ℚ) ≤ c' := by
  have h := C2_update_trailing_stop
    [("BTCUSDT", [("side", Value.str "LONG"),
      ("current_stop_loss", Value.num 95)])] "BTCUSDT" 94
    [("side", Value.str "LONG"), ("current_stop_loss", Value.num 95)]
    (Value.num 95) (Value.str "LONG") 95 (by decide) (by decide)
    (by decide) (by decide)
  refine ⟨(h.1 (by decide)).2 (by norm_num), ?_⟩
  obtain ⟨c', hc', hle⟩ := h.2.2 [("BTCUSDT", 96), ("BTCUSDT", 90)]
  refine ⟨c', hc', ?_⟩
  rw [if_pos (show Value.eqStr (Value.str "LONG") "LONG" = true
    from by decide)] at hle
  exact hle

theorem activation_step_latch (st : Ledger) (sym sym' : String)
    (p t : ℚ) (pos : PosDict) (tv : Value)
    (hpos : dlookup st sym = some pos)
    (htv : dlookup pos "trailing_stop_active" = some tv)
    (htr : tv.truthy = true) :
    ∃ pos' tv', dlookup
        (PositionManager.should_activate_trailing_stop st sym' p t).1 sym =
        some pos' ∧
      dlookup pos' "trailing_stop_active" = some tv' ∧
      tv'.truthy = true := by
  rcases hpos' : dlookup st sym' with _ | q
  · simp only [PositionManager.should_activate_trailing_stop, hpos']
    exact ⟨pos, tv, hpos, htv, htr⟩
  rcases htv' : dlookup q "trailing_stop_active" with _ | tw
  · simp only [PositionManager.should_activate_trailing_stop, hpos', htv']
    exact ⟨pos, tv, hpos, htv, htr⟩
  by_cases htw : tw.truthy = true
  · simp only [PositionManager.should_activate_trailing_stop, hpos', htv',
      htw, if_true]
    exact ⟨pos, tv, hpos, htv, htr⟩
  · rcases hev : dlookup q "entry_price" with _ | ev
    · simp only [PositionManager.should_activate_trailing_stop, hpos',
        htv', hev, if_neg htw]
      exact ⟨pos, tv, hpos, htv, htr⟩
    rcases hsv : dlookup q "side" with _ | sv
    · simp only [PositionManager.should_activate_trailing_stop, hpos',
        htv', hev, hsv, if_neg htw]
      exact ⟨pos, tv, hpos, htv, htr⟩
    rcases hn : ev.asNum with _ | entry
    · simp only [PositionManager.should_activate_trailing_stop, hpos',
        htv', hev, hsv, hn, if_neg htw]
      exact ⟨pos, tv, hpos, htv, htr⟩
    simp only [PositionManager.should_activate_trailing_stop, hpos', htv',
      hev, hsv, hn, if_neg htw]
    by_cases hz : entry = 0
    · rw [if_pos hz]
      exact ⟨pos, tv, hpos, htv, htr⟩
    rw [if_neg hz]
    by_cases hpr : (if sv.eqStr "LONG" = true then (p - entry) / entry
        else (entry - p) / entry) ≥ t
    · rw [if_pos hpr]
      by_cases hsym : sym' = sym
      · subst hsym
        rw [hpos'] at hpos
        have hq : q = pos := Option.some.inj hpos
        subst hq
        rw [htv'] at htv
        have htq : tw = tv := Option.some.inj htv
        subst htq
        exact absurd htr htw
      · refine ⟨pos, tv, ?_, htv, htr⟩
        rw [dlookup_dinsert_ne _ _ _ _ hsym]
        exact hpos
    · rw [if_neg hpr]
      exact ⟨pos, tv, hpos, htv, htr⟩

theorem activation_invariant_true (st : Ledger) (sym : String) (p t : ℚ)
    (pos : PosDict) (tv : Value) (hpos : dlookup st sym = some pos)
    (htv : dlookup pos "trailing_stop_active" = some tv)
    (htr : tv.truthy = true) :
    PositionManager.should_activate_trailing_stop st sym p t =
      (st, true) := by
  simp only [PositionManager.should_activate_trailing_stop, hpos, htv, htr,
    if_true]

theorem activation_true_latch (st : Ledger) (sym : String) (p t : ℚ)
    (h : (PositionManager.should_activate_trailing_stop st sym p t).2 =
      true) :
    ∃ pos tv, dlookup
        (PositionManager.should_activate_trailing_stop st sym p t).1 sym =
        some pos ∧
      dlookup pos "trailing_stop_active" = some tv ∧
      tv.truthy = true := by
  rcases hpos : dlookup st sym with _ | q
  · simp only [PositionManager.should_activate_trailing_stop, hpos] at h
    exact Bool.noConfusion h
  rcases htv : dlookup q "trailing_stop_active" with _ | tw
  · simp only [PositionManager.should_activate_trailing_stop, hpos,
      htv] at h
    exact Bool.noConfusion h
  by_cases htw : tw.truthy = true
  · simp only [PositionManager.should_activate_trailing_stop, hpos, htv,
      htw, if_true]
    exact ⟨q, tw, rfl, htv, htw⟩
  · rcases hev : dlookup q "entry_price" with _ | ev
    · simp only [PositionManager.should_activate_trailing_stop, hpos, htv,
        hev, if_neg htw] at h
      exact Bool.noConfusion h
    rcases hsv : dlookup q "side" with _ | sv
    · simp only [PositionManager.should_activate_trailing_stop, hpos, htv,
        hev, hsv, if_neg htw] at h
      exact Bool.noConfusion h
    rcases hn : ev.asNum with _ | entry
    · simp only [PositionManager.should_activate_trailing_stop, hpos, htv,
        hev, hsv, hn, if_neg htw] at h
      exact Bool.noConfusion h
    by_cases hz : entry = 0
    · simp only [PositionManager.should_activate_trailing_stop, hpos, htv,
        hev, hsv, hn, if_neg htw, if_pos hz] at h
      exact Bool.noConfusion h
    by_cases hpr : (if sv.eqStr "LONG" = true then (p - entry) / entry
        else (entry - p) / entry) ≥ t
    · simp only [PositionManager.should_activate_trailing_stop, hpos, htv,
        hev, hsv, hn, if_neg htw, if_neg hz, if_pos hpr]
      exact ⟨dinsert q "trailing_stop_active" (Value.bool true),
        Value.bool true, dlookup_dinsert_self _ _ _,
        dlookup_dinsert_self _ _ _, rfl⟩
    · simp only [PositionManager.should_activate_trailing_stop, hpos, htv,
        hev, hsv, hn, if_neg htw, if_neg hz, if_neg hpr] at h
      exact Bool.noConfusion h

theorem activation_run_latch (sym : String) :
    ∀ (calls : List (String × ℚ × ℚ)) (st : Ledger) (pos : PosDict)
      (tv : Value), dlookup st sym = some pos →
      dlookup pos "trailing_stop_active" = some tv → tv.truthy = true →
      ∃ pos' tv', dlookup (run_activations st calls) sym = some pos' ∧
        dlookup pos' "trailing_stop_active" = some tv' ∧
        tv'.truthy = true := by
  intro calls
  induction calls with
  | nil =>
      intro st pos tv hpos htv htr
      exact ⟨pos, tv, hpos, htv, htr⟩
  | cons c rest ih =>
      intro st pos tv hpos htv htr
      obtain ⟨pos1, tv1, h1, h2, h3⟩ :=
        activation_step_latch st sym c.1 c.2.1 c.2.2 pos tv hpos htv htr
      exact ih _ pos1 tv1 h1 h2 h3

/-- C3: `should_activate_trailing_stop` is a one-way latch per symbol: once
a call for a symbol has returned true, then after any further sequence of
`should_activate_trailing_stop` calls (for any symbols, prices and
thresholds) the position is still in the ledger with a truthy
`trailing_stop_active` flag, and a call for that symbol still returns true,
regardless of the current price. -/
theorem C3_trailing_latch (st : Ledger) (symbol : String)
    (price thr p t : ℚ) (calls : List (String × ℚ × ℚ))
    (h : (PositionManager.should_activate_trailing_stop st symbol price
      thr).2 = true) :
    (∃ pos tv, dlookup (run_activations
        (PositionManager.should_activate_trailing_stop st symbol price
          thr).1 calls) symbol = some pos ∧
      dlookup pos "trailing_stop_active" = some tv ∧
      tv.truthy = true) ∧
    (PositionManager.should_activate_trailing_stop
      (run_activations (PositionManager.should_activate_trailing_stop st
        symbol price thr).1 calls) symbol p t).2 = true := by
  obtain ⟨pos0, tv0, h1, h2, h3⟩ :=
    activation_true_latch st symbol price thr h
  obtain ⟨pos', tv', g1, g2, g3⟩ :=
    activation_run_latch symbol calls _ pos0 tv0 h1 h2 h3
  refine ⟨⟨pos', tv', g1, g2, g3⟩, ?_⟩
  rw [activation_invariant_true _ _ p t pos' tv' g1 g2 g3]

/-- Witness for C3: a LONG entered at 100 activates at price 101 with a 1%
threshold, and stays activated (and keeps answering true at price 50) after
a retracement call at price 50. -/
theorem C3_trailing_latch_witness :
    (∃ pos tv, dlookup (run_activations
        (PositionManager.should_activate_trailing_stop
          [("BTCUSDT", [("side", Value.str "LONG"),
            ("entry_price", Value.num 100),
            ("trailing_stop_active", Value.bool false)])]
          "BTCUSDT" 101 (1/100)).1
        [("BTCUSDT", 50, 1/100)]) "BTCUSDT" = some pos ∧
      dlookup pos "trailing_stop_active" = some tv ∧
      tv.truthy = true) ∧
    (PositionManager.should_activate_trailing_stop
      (run_activations (PositionManager.should_activate_trailing_stop
        [("BTCUSDT", [("side", Value.str "LONG"),
          ("entry_price", Value.num 100),
          ("trailing_stop_active", Value.bool false)])]
        "BTCUSDT" 101 (1/100)).1
        [("BTCUSDT", 50, 1/100)]) "BTCUSDT" 50 (1/100)).2 = true :=
  C3_trailing_latch
    [("BTCUSDT", [("side", Value.str "LONG"),
      ("entry_price", Value.num 100),
      ("trailing_stop_active", Value.bool false)])]
    "BTCUSDT" 101 (1/100) 50 (1/100) [("BTCUSDT", 50, 1/100)] (by
      have hd1 : dlookup [("BTCUSDT", [("side", Value.str "LONG"),
          ("entry_price", Value.num 100),
          ("trailing_stop_active", Value.bool false)])] "BTCUSDT" =
          some [("side", Value.str "LONG"), ("entry_price", Value.num 100),
            ("trailing_stop_active", Value.bool false)] := by decide
      have hd2 : dlookup [("side", Value.str "LONG"),
          ("entry_price", Value.num 100),
          ("trailing_stop_active", Value.bool false)]
          "trailing_stop_active" = some (Value.bool false) := by decide
      have hd3 : dlookup [("side", Value.str "LONG"),
          ("entry_price", Value.num 100),
          ("trailing_stop_active", Value.bool false)] "entry_price" =
          some (Value.num 100) := by decide
      have hd4 : dlookup [("side", Value.str "LONG"),
          ("entry_price", Value.num 100),
          ("trailing_stop_active", Value.bool false)] "side" =
          some (Value.str "LONG") := by decide
      simp only [PositionManager.should_activate_trailing_stop, hd1, hd2,
        hd3, hd4, Value.truthy, Value.asNum, Value.eqStr]
      norm_num)

/-- C7 is refuted at the boundary of the RSI band: the claim awards the
0.2 RSI bonus on the closed interval [30, 70], but the code tests
30 < rsi < 70, so at RSI = 30 (directional trend, LONG signal, matching
MACD) the code yields 0.8 while the claimed formula yields 1.0. -/
theorem C7_counterexample :
    TradingStrategy.calculate_signal_confidence
      { symbol := "BTCUSDT", signal := "LONG", trend_4h := "UPTREND",
        ema_crossover_15m := false, rsi_15m := 30,
        macd_15m := some (6/5, 1, 1/5), current_price := 0,
        confidence := 0 } = 4/5 ∧
    confidence_as_claimed
      { symbol := "BTCUSDT", signal := "LONG", trend_4h := "UPTREND",
        ema_crossover_15m := false, rsi_15m := 30,
        macd_15m := some (6/5, 1, 1/5), current_price := 0,
        confidence := 0 } = 1 ∧
    ((4 : ℚ)/5) ≠ 1 := by
  have hLH : (("LONG" : String) = "HOLD") = False := eq_false (by decide)
  have hLS : (("LONG" : String) = "SHORT") = False := eq_false (by decide)
  refine ⟨?_, ?_, by norm_num⟩
  · norm_num [TradingStrategy.calculate_signal_confidence, hLH, hLS]
  · norm_num [confidence_as_claimed, hLH, hLS]

/-- C7 (amended): the reported confidence equals the claimed sum of
0.3 (directional trend) + 0.2 (RSI strictly inside (30, 70)) + 0.3 (MACD
matching the signal in direction and sign) + 0.2 (signal not HOLD),
clipped to [0, 1], the only change being the open RSI interval; the
claimed particular case (LONG, directional trend, RSI 55,
MACD 1.2 > signal 1.0 > 0) still gives 1.0. -/
theorem C7_confidence_formula (r : AnalysisResult) :
    TradingStrategy.calculate_signal_confidence r =
      confidence_as_amended r ∧
    TradingStrategy.calculate_signal_confidence
      { symbol := "BTCUSDT", signal := "LONG", trend_4h := "UPTREND",
        ema_crossover_15m := false, rsi_15m := 55,
        macd_15m := some (6/5, 1, 1/5), current_price := 0,
        confidence := 0 } = 1 := by
  have hLH : (("LONG" : String) = "HOLD") = False := eq_false (by decide)
  have hLS : (("LONG" : String) = "SHORT") = False := eq_false (by decide)
  constructor
  · unfold TradingStrategy.calculate_signal_confidence
      confidence_as_amended
    rcases hm : r.macd_15m with _ | ⟨⟨m, s, hist⟩⟩
    · split_ifs <;> norm_num
    · by_cases hA : r.signal = "LONG" ∧ s < m ∧ 0 < m
      · simp only [if_pos hA, if_pos (Or.inl hA :
          (r.signal = "LONG" ∧ s < m ∧ 0 < m) ∨
          (r.signal = "SHORT" ∧ m < s ∧ m < 0))]
        split_ifs <;> norm_num
      · by_cases hB : r.signal = "SHORT" ∧ m < s ∧ m < 0
        · simp only [if_neg hA, if_pos hB, if_pos (Or.inr hB :
            (r.signal = "LONG" ∧ s < m ∧ 0 < m) ∨
            (r.signal = "SHORT" ∧ m < s ∧ m < 0))]
          split_ifs <;> norm_num
        · simp only [if_neg hA, if_neg hB,
            if_neg (show ¬((r.signal = "LONG" ∧ s < m ∧ 0 < m) ∨
              (r.signal = "SHORT" ∧ m < s ∧ m < 0)) from
              fun h => h.elim hA hB)]
          split_ifs <;> norm_num
  · norm_num [TradingStrategy.calculate_signal_confidence, hLH, hLS]

set_option maxRecDepth 4000

/-- C5 is refuted for short 15m series: with 200 4h candles (so the trend
computes, here UPTREND) and a 15m series of length 1 < 100, the analysis
still proceeds — it returns HOLD but with confidence 0.3, not 0, because
the source only rejects empty candle frames (trading_strategy.py:46-54)
and never checks the requested lengths 200/100. -/
theorem C5_counterexample :
    (List.replicate 199 (100 : ℚ) ++ [300]).length = 200 ∧
    ([(50 : ℚ)]).length < 100 ∧
    (TradingStrategy.analyze_symbol "BTCUSDT"
      (some (List.replicate 199 (100 : ℚ) ++ [300])) (some [50])
      7).signal = "HOLD" ∧
    (TradingStrategy.analyze_symbol "BTCUSDT"
      (some (List.replicate 199 (100 : ℚ) ++ [300])) (some [50])
      7).confidence = 3/10 ∧
    ((3 : ℚ)/10) ≠ 0 := by
  have hlen : (List.replicate 199 (100 : ℚ) ++ [300]).length = 200 := by
    simp
  have hne : (List.replicate 199 (100 : ℚ) ++ [300]) ≠ [] := by simp
  have h15ne : ¬ ([(50 : ℚ)] = []) := by simp
  have hema : TA.ema (List.replicate 199 (100 : ℚ) ++ [300]) 200 =
      some [101] := by
    unfold TA.ema TA.emaVals
    rw [if_neg (by rw [hlen]; norm_num)]
    have hdrop : (List.replicate 199 (100 : ℚ) ++ [300]).drop 200 = [] :=
      List.drop_eq_nil_of_le (by rw [hlen])
    have htake : (List.replicate 199 (100 : ℚ) ++ [300]).take 200 =
        List.replicate 199 (100 : ℚ) ++ [300] :=
      List.take_of_length_le (by rw [hlen])
    rw [hdrop, htake, List.scanl_nil]
    have hsum : (List.replicate 199 (100 : ℚ) ++ [300]).sum = 20200 := by
      rw [List.sum_append, List.sum_replicate]
      norm_num
    rw [hsum]
    norm_num
  have hcal : TA.calculate_ema (List.replicate 199 (100 : ℚ) ++ [300])
      200 = some [101] := by
    unfold TA.calculate_ema
    rw [if_neg hne]
    exact hema
  have hlast : (List.replicate 199 (100 : ℚ) ++ [300]).getLast? =
      some 300 := by simp
  have htrend : TA.get_trend_direction
      (some (List.replicate 199 (100 : ℚ) ++ [300])) 200 =
      some "UPTREND" := by
    simp only [TA.get_trend_direction, if_neg hne, hcal, hlast]
    norm_num
  have hrsi : TA.calculate_rsi [(50 : ℚ)] 14 = none := by
    unfold TA.calculate_rsi TA.rsiLast
    rw [if_neg h15ne, if_pos (by norm_num)]
  have hmacd : TA.calculate_macd [(50 : ℚ)] 12 26 9 = none := by
    unfold TA.calculate_macd TA.macdLast
    rw [if_neg h15ne, if_pos (by norm_num)]
  have hcross : TA.check_ema_crossover (some [(50 : ℚ)]) 20 "UP" =
      false := by
    simp only [TA.check_ema_crossover]
    rw [if_pos (by norm_num)]
  have hsig : TradingStrategy.generate_signal "UPTREND"
      (some [(50 : ℚ)]) 0 none = "HOLD" := by
    unfold TradingStrategy.generate_signal
    rw [if_neg, if_neg]
    · unfold TradingStrategy.check_short_conditions
      rw [if_pos (by decide)]
      exact Bool.false_ne_true
    · unfold TradingStrategy.check_long_conditions
      rw [if_neg (by decide), if_pos]
      · exact Bool.false_ne_true
      · rw [show Config.EMA_20_PERIOD = 20 from rfl, hcross]
        decide
  have hana : TradingStrategy.analyze_symbol "BTCUSDT"
      (some (List.replicate 199 (100 : ℚ) ++ [300])) (some [50]) 7 =
      { symbol := "BTCUSDT", signal := "HOLD", trend_4h := "UPTREND",
        ema_crossover_15m := false, rsi_15m := 0, macd_15m := none,
        current_price := 7, confidence := 3/10 } := by
    simp only [TradingStrategy.analyze_symbol, Config.EMA_200_PERIOD,
      Config.RSI_PERIOD, Config.MACD_FAST_PERIOD, Config.MACD_SLOW_PERIOD,
      Config.MACD_SIGNAL_PERIOD, htrend, hrsi, hmacd, Option.getD_none,
      if_neg hne, if_neg h15ne]
    simp only [hsig]
    norm_num [TradingStrategy.calculate_signal_confidence]
  refine ⟨hlen, by norm_num, ?_, ?_, by norm_num⟩
  · rw [hana]
  · rw [hana]

/-- C5 (amended): `analyze_symbol` returns a well-formed result with signal
HOLD and confidence 0 — caught exceptions included, it never raises —
whenever the 4h series is missing, empty or shorter than 200 candles, or
the 15m series is missing or empty; a non-empty 15m series shorter than
100 candles is, however, analyzed normally (see the counterexample). -/
theorem C5_short_series_hold (symbol : String)
    (kl4h kl15m : Option (List ℚ)) (price : ℚ)
    (h : (∀ xs, kl4h = some xs → xs.length < 200) ∨ kl15m = none ∨
      kl15m = some []) :
    (TradingStrategy.analyze_symbol symbol kl4h kl15m price).signal =
      "HOLD" ∧
    (TradingStrategy.analyze_symbol symbol kl4h kl15m price).confidence =
      0 := by
  rcases kl4h with _ | xs4
  · exact ⟨rfl, rfl⟩
  by_cases h4 : xs4 = []
  · simp only [TradingStrategy.analyze_symbol]
    rw [if_pos h4]
    exact ⟨rfl, rfl⟩
  rcases kl15m with _ | xs15
  · simp only [TradingStrategy.analyze_symbol]
    rw [if_neg h4]
    exact ⟨rfl, rfl⟩
  by_cases h15 : xs15 = []
  · simp only [TradingStrategy.analyze_symbol]
    rw [if_neg h4, if_pos h15]
    exact ⟨rfl, rfl⟩
  rcases h with hL | hnone | hempty
  · have hlen : xs4.length < 200 := hL xs4 rfl
    have hema : TA.ema xs4 Config.EMA_200_PERIOD = none := by
      unfold TA.ema
      rw [if_pos (show xs4.length < Config.EMA_200_PERIOD from hlen)]
    have hcal : TA.calculate_ema xs4 Config.EMA_200_PERIOD = none := by
      unfold TA.calculate_ema
      rw [if_neg h4]
      exact hema
    have htd : TA.get_trend_direction (some xs4) Config.EMA_200_PERIOD =
        none := by
      simp only [TA.get_trend_direction, if_neg h4, hcal]
    simp only [TradingStrategy.analyze_symbol, htd]
    rw [if_neg h4, if_neg h15]
    exact ⟨rfl, rfl⟩
  · exact Option.noConfusion hnone
  · exact absurd (Option.some.inj hempty) h15

/-- Witness for the amended C5: a one-candle 4h series (shorter than 200)
yields HOLD with confidence 0, whatever the 15m data. -/
theorem C5_short_series_hold_witness :
    (TradingStrategy.analyze_symbol "BTCUSDT" (some [(1 : ℚ)])
      (some [(2 : ℚ)]) 5).signal = "HOLD" ∧
    (TradingStrategy.analyze_symbol "BTCUSDT" (some [(1 : ℚ)])
      (some [(2 : ℚ)]) 5).confidence = 0 :=
  C5_short_series_hold "BTCUSDT" (some [1]) (some [2]) 5
    (Or.inl fun xs hxs => by
      injection hxs with h'
      rw [← h']
      decide)
